import Mathlib

/-
Shallow embedding of the VocabularyBuddy application core.

Data model from src/types.ts; the history operations from src/App.tsx; the
lookup orchestration from the VocabularyLookup component; the quiz engine
from src/components/Quiz.tsx; the provider wrapper generateQuizQuestion
from src/services/geminiService.ts.

External asynchronous provider calls are modelled as oracle functions
passed in as parameters, returning Except String to model promise
rejection carrying an error message. Promise.all over a list of issued
calls is modelled by promiseAll, which fails with the first error in list
order when any call fails. React state updates are modelled by explicit
state passing; each orchestration function additionally returns the list
of words for which a provider fetch was issued, so that claims about which
fetches happen are statable. Randomness (shuffleArray) is modelled by
explicit shuffle parameters.
-/

set_option linter.unusedVariables false

namespace VocabBuddy

/-- WordData from src/types.ts. The derived pronunciationAudioBuffer field
is dropped: it is a decoded runtime handle, not data. -/
structure WordData where
  word : String
  partOfSpeech : String
  ipa : String
  phoneticSyllables : List String
  definition : String
  exampleSentences : List String
  simplifiedExplanation : String
  difficulty : String
  origin : String
  pronunciationAudio : Option String := none
deriving Repr, DecidableEq

/-- QuizQuestion from src/types.ts. -/
structure QuizQuestion where
  question : String
  options : List String
  correctAnswer : String
  word : String
  explanation : String
deriving Repr, DecidableEq

/-- The result shape of fetchPartialWordData from
src/services/geminiService.ts: only the two audience-dependent fields. -/
structure PartialWordData where
  exampleSentences : List String
  simplifiedExplanation : String
deriving Repr, DecidableEq

/-- The parsed JSON body of a quiz-question response, as described by
quizQuestionSchema in src/services/geminiService.ts. -/
structure QuizRaw where
  question : String
  options : List String
  correctAnswer : String
deriving Repr, DecidableEq

/-- Model of the JS String.prototype.toLowerCase for the ASCII range,
written over the character list so that it reduces in the kernel. -/
def jsToLower (s : String) : String :=
  ⟨s.data.map Char.toLower⟩

/-- Model of the JS String.prototype.trim: drop whitespace from both ends,
written over the character list so that it reduces in the kernel. -/
def jsTrim (s : String) : String :=
  ⟨(((s.data.dropWhile Char.isWhitespace).reverse.dropWhile
      Char.isWhitespace).reverse)⟩

/-- Auxiliary for splitComma: split the remaining characters at each
comma, with the characters of the current piece accumulated in reverse. -/
def splitCommaAux : List Char → List Char → List String
  | [], acc => [⟨acc.reverse⟩]
  | c :: cs, acc =>
    if c = ',' then ⟨acc.reverse⟩ :: splitCommaAux cs []
    else splitCommaAux cs (c :: acc)

/-- Model of the JS String.prototype.split with separator a comma. -/
def splitComma (s : String) : List String :=
  splitCommaAux s.data []

/-- Promise.all over a list of settled outcomes: succeeds with the list of
values when every call succeeded, otherwise fails with one error message
(the first in list order). -/
def promiseAll {ε α : Type} : List (Except ε α) → Except ε (List α)
  | [] => Except.ok []
  | Except.error e :: _ => Except.error e
  | Except.ok a :: xs =>
    match promiseAll xs with
    | Except.ok as => Except.ok (a :: as)
    | Except.error e => Except.error e

/-- addToHistory from src/App.tsx: keep the incoming records whose word is
not already present in the history, comparing lowercased words, and
prepend them. -/
def addToHistory (newWordsData : List WordData) (prevHistory : List WordData) :
    List WordData :=
  let newWords := newWordsData.filter (fun wordData =>
    !(prevHistory.any (fun h => jsToLower h.word == jsToLower wordData.word)))
  newWords ++ prevHistory

/-- updateHistoryItem from src/App.tsx: map over the history replacing
every entry whose lowercased word equals the lowercased word of the
supplied record. -/
def updateHistoryItem (updatedWord : WordData) (prevHistory : List WordData) :
    List WordData :=
  prevHistory.map (fun item =>
    if jsToLower item.word == jsToLower updatedWord.word then updatedWord else item)

/-- generateQuizQuestion from src/services/geminiService.ts. The network
response text is modelled as Option QuizRaw: none when JSON.parse throws
(response not parseable), some raw when it parses. On parse failure the
function throws the format error; otherwise it returns the parsed fields
with word and explanation taken from the target record. The allWords pool
only feeds the prompt text. -/
def generateQuizQuestion (targetWord : WordData) (allWords : List WordData)
    (response : Option QuizRaw) : Except String QuizQuestion :=
  match response with
  | none => Except.error "Failed to generate a valid quiz question."
  | some data =>
    Except.ok { question := data.question, options := data.options,
                correctAnswer := data.correctAnswer,
                word := targetWord.word,
                explanation := targetWord.simplifiedExplanation }

/-- The QuizQuestion options invariant stated by the specification: exactly
4 pairwise-distinct options with the correct answer among them. -/
def optionsInvariant (q : QuizQuestion) : Prop :=
  q.options.length = 4 ∧ q.options.Nodup ∧ q.correctAnswer ∈ q.options

/-- The component state of VocabularyLookup (its useState hooks), together
with the history collection owned by App and the isMounted ref. -/
structure LookupState where
  input : String
  gradeLevel : String
  results : List WordData
  currentIndex : Nat
  isLoading : Bool
  isUpdating : Bool
  error : Option String
  isMounted : Bool
  history : List WordData
deriving Repr, DecidableEq

/-- handleSearch from the VocabularyLookup component. The fetch parameter
is the fetchWordData oracle taking the word and the grade level. Returns
the new state together with the list of words for which a fetchWordData
call was issued. An input whose trimmed form is empty is rejected up
front, before any state update. -/
def handleSearch (fetch : String → String → Except String WordData)
    (wordsToSearch : String) (s : LookupState) : LookupState × List String :=
  if jsTrim wordsToSearch = "" then (s, [])
  else
    let words := ((splitComma wordsToSearch).map jsTrim).filter
      (fun w => w != "")
    let s1 : LookupState :=
      { s with isLoading := true, error := none, results := [], currentIndex := 0 }
    match promiseAll (words.map (fun w => fetch w s.gradeLevel)) with
    | Except.ok newWordData =>
      ({ s1 with results := newWordData,
                 history := addToHistory newWordData s1.history,
                 isLoading := false }, words)
    | Except.error e =>
      ({ s1 with error := some e, isLoading := false }, words)

/-- The object spread over a record and a partial fetch result: the two
audience-dependent fields are overwritten, everything else is kept. -/
def spreadPartial (cur : WordData) (pd : PartialWordData) : WordData :=
  { cur with exampleSentences := pd.exampleSentences,
             simplifiedExplanation := pd.simplifiedExplanation }

/-- The useEffect on gradeLevel in VocabularyLookup. On the initial mount
it only flips the isMounted ref and fetches nothing. Afterwards, when a
record is currently displayed and its word is a nonempty string (the JS
truthiness test on wordToUpdate), it issues one fetchPartialWordData call
for that word; on success it overwrites only the exampleSentences and
simplifiedExplanation fields of that record, in results at the current
index and in the history via updateHistoryItem; on failure it only sets
the error message. -/
def gradeLevelEffect (fetchPartialData : String → String → Except String PartialWordData)
    (s : LookupState) : LookupState × List String :=
  if s.isMounted then
    match s.results[s.currentIndex]? with
    | none => (s, [])
    | some currentData =>
      if currentData.word = "" then (s, [])
      else
        match fetchPartialData currentData.word s.gradeLevel with
        | Except.ok pd =>
          let updatedData : WordData := spreadPartial currentData pd
          ({ s with error := none,
                    results := s.results.mapIdx (fun index item =>
                      if index = s.currentIndex then updatedData else item),
                    history := updateHistoryItem updatedData s.history,
                    isUpdating := false }, [currentData.word])
        | Except.error e =>
          ({ s with error := some e, isUpdating := false }, [currentData.word])
  else
    ({ s with isMounted := true }, [])

/-- The QuizState union type from src/components/Quiz.tsx. -/
inductive QuizState where
  | idle
  | generating
  | active
  | finished
deriving Repr, DecidableEq

/-- The userAnswers record (a JS object keyed by question index) is
modelled as an association list where the most recent binding for a key
comes first; answersSet is the object spread that overwrites one key. -/
def answersSet (m : List (Nat × String)) (k : Nat) (v : String) :
    List (Nat × String) :=
  (k, v) :: m

/-- Lookup in the userAnswers record: the most recent binding for the key,
none when the key is absent (JS undefined). -/
def answersGet (m : List (Nat × String)) (k : Nat) : Option String :=
  (m.find? (fun p => p.1 == k)).map (fun p => p.2)

/-- The component state of the Quiz component (its useState hooks). -/
structure QuizStore where
  questions : List QuizQuestion
  currentQuestionIndex : Nat
  userAnswers : List (Nat × String)
  quizState : QuizState
  error : Option String
deriving Repr, DecidableEq

/-- startQuiz from src/components/Quiz.tsx. The two uses of the random
shuffleArray are modelled by explicit shuffle parameters; gen is the
generateQuizQuestion oracle taking the target and the candidate pool,
which the source passes as the original words list. The shuffled words are
capped to the first 5 (the slice limiting the quiz length). The second
component of the result lists the quiz states entered via setQuizState, in
order. -/
def startQuiz (shuffleWords : List WordData → List WordData)
    (shuffleOptions : List String → List String)
    (gen : WordData → List WordData → Except String QuizQuestion)
    (words : List WordData) (s : QuizStore) : QuizStore × List QuizState :=
  if words.length < 4 then
    ({ s with error := some "You need at least 4 saved words to start a quiz." },
     [])
  else
    let s1 : QuizStore :=
      { s with quizState := QuizState.generating, error := none,
               userAnswers := [], currentQuestionIndex := 0, questions := [] }
    let shuffledWords := shuffleWords words
    let quizWords := shuffledWords.take 5
    match promiseAll (quizWords.map (fun w => gen w words)) with
    | Except.ok generatedQuestions =>
      let questionsWithShuffledOptions := generatedQuestions.map
        (fun q => { q with options := shuffleOptions q.options })
      ({ s1 with questions := questionsWithShuffledOptions,
                 quizState := QuizState.active },
       [QuizState.generating, QuizState.active])
    | Except.error e =>
      ({ s1 with error := some e, quizState := QuizState.idle },
       [QuizState.generating, QuizState.idle])

/-- The synchronous part of handleAnswer in src/components/Quiz.tsx:
record the answer for the current question index by object spread over
userAnswers. -/
def recordAnswer (s : QuizStore) (answer : String) : QuizStore :=
  { s with userAnswers := answersSet s.userAnswers s.currentQuestionIndex answer }

/-- The deferred part of handleAnswer (the setTimeout body): advance to
the next question, or transition to finished after the last one. -/
def timeoutAdvance (s : QuizStore) : QuizStore :=
  if s.currentQuestionIndex < s.questions.length - 1 then
    { s with currentQuestionIndex := s.currentQuestionIndex + 1 }
  else
    { s with quizState := QuizState.finished }

/-- A click on an option button in the active quiz view. The rendered
button carries disabled set to the double negation of userAnswer, so the
click is a no-op exactly when the recorded answer for the current question
is a truthy string, that is, present and nonempty; otherwise handleAnswer
records the clicked option. -/
def clickOption (s : QuizStore) (answer : String) : QuizStore :=
  match answersGet s.userAnswers s.currentQuestionIndex with
  | none => recordAnswer s answer
  | some a => if a = "" then recordAnswer s answer else s

/-- calculateScore from src/components/Quiz.tsx: reduce over the questions
with their index, incrementing the score when the recorded answer for the
index equals the correct answer of the question. -/
def calculateScore (questions : List QuizQuestion)
    (userAnswers : List (Nat × String)) : Nat :=
  questions.enum.foldl (fun score p =>
    if answersGet userAnswers p.1 == some p.2.correctAnswer then score + 1 else score) 0

/-- The percentage shown by the finished branch of the Quiz component:
Math.round of score divided by the number of questions times 100 when
there is at least one question, else 0. For a nonnegative rational x,
Math.round x is the floor of x plus one half; with exact rational
arithmetic this floor is the natural number division below. -/
def percentage (score n : Nat) : Nat :=
  if 0 < n then (200 * score + n) / (2 * n) else 0

/-- Case-insensitive uniqueness of the words in a history collection. -/
def uniqueWords (l : List WordData) : Prop :=
  l.Pairwise (fun a b => jsToLower a.word ≠ jsToLower b.word)

/-- A WordData value with the given word and definition and fixed
remaining fields; used for concrete instances. -/
def mkWordData (w d : String) : WordData :=
  { word := w, partOfSpeech := "noun", ipa := "", phoneticSyllables := [],
    definition := d, exampleSentences := ["s1", "s2"],
    simplifiedExplanation := "simple", difficulty := "Easy", origin := "",
    pronunciationAudio := none }

/-- A lookup state with empty collections, used for concrete instances. -/
def emptyLookupState : LookupState :=
  { input := "", gradeLevel := "5th Grader", results := [], currentIndex := 0,
    isLoading := false, isUpdating := false, error := none, isMounted := true,
    history := [] }

/-- A fetchWordData oracle that always succeeds. -/
def fetchAlwaysOk : String → String → Except String WordData :=
  fun w g => Except.ok (mkWordData w (String.append "definition of " w))

/-- A generateQuizQuestion oracle that always fails. -/
def genFail : WordData → List WordData → Except String QuizQuestion :=
  fun t pool => Except.error "Failed to generate a valid quiz question."

/-- A fetchPartialWordData oracle that always succeeds with fixed fields. -/
def partialOracle : String → String → Except String PartialWordData :=
  fun w g => Except.ok { exampleSentences := ["n1", "n2"],
                         simplifiedExplanation := "newer" }

/-- An idle quiz store, used for concrete instances. -/
def idleQuizStore : QuizStore :=
  { questions := [], currentQuestionIndex := 0, userAnswers := [],
    quizState := QuizState.idle, error := none }

/-- A single quiz question whose correct answer is the given string. -/
def qFor (c : String) : QuizQuestion :=
  { question := "what", options := [c, "x", "y", "z"], correctAnswer := c,
    word := "w", explanation := "e" }

/-- Five concrete questions, for the score instance. -/
def fiveQuestions : List QuizQuestion :=
  [qFor "a", qFor "b", qFor "c", qFor "d", qFor "e"]

/-- Recorded answers matching exactly three of the five questions. -/
def threeRightAnswers : List (Nat × String) :=
  [(0, "a"), (1, "b"), (2, "c"), (3, "x"), (4, "y")]

/-- A parseable quiz response with three options and a correct answer that
is not among them. -/
def badRaw : QuizRaw :=
  { question := "q", options := ["a", "b", "c"], correctAnswer := "z" }

/-- An active quiz store on one question with no recorded answer yet. -/
def activeStore : QuizStore :=
  { questions := [qFor "a"], currentQuestionIndex := 0, userAnswers := [],
    quizState := QuizState.active, error := none }

/-- An active quiz store whose single question has an empty-string option. -/
def emptyOptionStore : QuizStore :=
  { questions := [{ question := "q", options := ["", "x", "y", "z"],
                    correctAnswer := "x", word := "w", explanation := "e" }],
    currentQuestionIndex := 0, userAnswers := [],
    quizState := QuizState.active, error := none }

/-- A mounted lookup state displaying one record, with a two-entry history. -/
def mountedState : LookupState :=
  { emptyLookupState with results := [mkWordData "cat" "d"],
                          history := [mkWordData "cat" "d", mkWordData "dog" "e"],
                          isMounted := true }

/-! Helper lemmas shared by several developments. -/

theorem promiseAll_map_ok {α β : Type} (f : α → Except String β) (l : List α)
    (h : ∀ a ∈ l, ∃ b, f a = Except.ok b) :
    ∃ bs, promiseAll (l.map f) = Except.ok bs := by
  induction l with
  | nil => exact ⟨[], rfl⟩
  | cons a l ih =>
    obtain ⟨b, hb⟩ := h a (List.mem_cons_self a l)
    obtain ⟨bs, hbs⟩ := ih (fun x hx => h x (List.mem_cons_of_mem a hx))
    exact ⟨b :: bs, by simp [promiseAll, hb, hbs]⟩

theorem promiseAll_map_error {α β : Type} (f : α → Except String β) (l : List α)
    (h : ∃ a ∈ l, ∀ b, f a ≠ Except.ok b) :
    ∃ e, promiseAll (l.map f) = Except.error e := by
  induction l with
  | nil => simp at h
  | cons a l ih =>
    obtain ⟨x, hx, hne⟩ := h
    rcases List.mem_cons.mp hx with rfl | hxl
    · cases hfa : f x with
      | ok b => exact absurd hfa (hne b)
      | error e =>
        cases h2 : promiseAll (l.map f) with
        | ok bs => exact ⟨e, by simp [promiseAll, hfa, h2]⟩
        | error e2 => exact ⟨e, by simp [promiseAll, hfa, h2]⟩
    · obtain ⟨e, he⟩ := ih ⟨x, hxl, hne⟩
      cases hfa : f a with
      | ok b => exact ⟨e, by simp [promiseAll, hfa, he]⟩
      | error e2 => exact ⟨e2, by simp [promiseAll, hfa, he]⟩

theorem foldl_count_aux {α : Type} (p : α → Bool) (l : List α) (n : Nat) :
    l.foldl (fun s x => if p x then s + 1 else s) n = n + l.countP p := by
  induction l generalizing n with
  | nil => simp [List.countP_nil]
  | cons a l ih =>
    simp only [List.foldl_cons, List.countP_cons, ih]
    by_cases h : p a = true
    · simp [h]; omega
    · simp [h]

theorem answersGet_set (m : List (Nat × String)) (k : Nat) (v : String) :
    answersGet (answersSet m k v) k = some v := by
  unfold answersGet answersSet
  rw [List.find?_cons_of_pos _ (by simp)]
  rfl

theorem percentage_floor (s n : Nat) (hn : 0 < n) :
    percentage s n = Nat.floor ((s * 100 : ℚ) / n + 1 / 2) := by
  have hn0 : (n : ℚ) ≠ 0 := Nat.cast_ne_zero.mpr hn.ne'
  have hq : (s * 100 : ℚ) / n + 1 / 2 = ((200 * s + n : ℕ) : ℚ) / ((2 * n : ℕ) : ℚ) := by
    push_cast
    field_simp
    ring
  rw [percentage, if_pos hn, hq, Nat.floor_div_nat, Nat.floor_natCast]

/-! Claim theorems. -/

/-- C10: on an input whose trimmed form is empty, handleSearch is a
complete no-op: no fetchWordData call is issued and the state, results,
current index, loading flag and error message included, is returned
unchanged. -/
theorem handleSearch_noop (fetch : String → String → Except String WordData)
    (raw : String) (s : LookupState) (h : jsTrim raw = "") :
    handleSearch fetch raw s = (s, []) := by
  simp [handleSearch, h]

/-- C10 witness: a whitespace-only search leaves the empty lookup state
untouched and fetches nothing. -/
theorem handleSearch_noop_witness :
    (jsTrim "   " = "") ∧
    handleSearch fetchAlwaysOk "   " emptyLookupState = (emptyLookupState, []) :=
  ⟨by decide, handleSearch_noop fetchAlwaysOk "   " emptyLookupState (by decide)⟩

/-- C4: updateHistoryItem maps over the history, replacing exactly the
entries whose word matches the supplied record case-insensitively, so the
collection length and the relative order are unchanged and every
non-matching entry is kept as is; when no entry matches, the history is
returned unchanged. -/
theorem updateHistoryItem_frame (r : WordData) (h : List WordData) :
    (updateHistoryItem r h).length = h.length ∧
    (∀ i : Nat, (updateHistoryItem r h)[i]? =
      (h[i]?).map (fun item =>
        if jsToLower item.word == jsToLower r.word then r else item)) ∧
    ((∀ x ∈ h, jsToLower x.word ≠ jsToLower r.word) → updateHistoryItem r h = h) := by
  refine ⟨by simp [updateHistoryItem], fun i => by simp [updateHistoryItem], ?_⟩
  intro hnone
  unfold updateHistoryItem
  have hcongr : ∀ a ∈ h,
      (if jsToLower a.word == jsToLower r.word then r else a) = id a := by
    intro a ha
    simp [beq_iff_eq, hnone a ha]
  rw [List.map_congr_left hcongr, List.map_id]

/-- C4 witness: updating a record absent from the history is a no-op, and
the length is preserved on a concrete history. -/
theorem updateHistoryItem_frame_witness :
    updateHistoryItem (mkWordData "dog" "d") [mkWordData "cat" "c"]
      = [mkWordData "cat" "c"] ∧
    (updateHistoryItem (mkWordData "cat" "c2") [mkWordData "cat" "c"]).length = 1 :=
  ⟨(updateHistoryItem_frame (mkWordData "dog" "d") [mkWordData "cat" "c"]).2.2
      (by decide),
   (updateHistoryItem_frame (mkWordData "cat" "c2") [mkWordData "cat" "c"]).1⟩

/-- C5: startQuiz invoked with fewer than 4 words only sets the error
message: the quiz state field is unchanged, so an idle machine stays idle,
and no state is entered via setQuizState, in particular neither generating
nor active. -/
theorem startQuiz_guard (shuffleWords : List WordData → List WordData)
    (shuffleOptions : List String → List String)
    (gen : WordData → List WordData → Except String QuizQuestion)
    (words : List WordData) (s : QuizStore) (hlt : words.length < 4) :
    (startQuiz shuffleWords shuffleOptions gen words s).1.quizState = s.quizState ∧
    (startQuiz shuffleWords shuffleOptions gen words s).1.error =
      some "You need at least 4 saved words to start a quiz." ∧
    (startQuiz shuffleWords shuffleOptions gen words s).2 = [] ∧
    (s.quizState = QuizState.idle →
      (startQuiz shuffleWords shuffleOptions gen words s).1.quizState
        = QuizState.idle) := by
  refine ⟨?_, ?_, ?_, ?_⟩ <;> simp [startQuiz, hlt]

/-- C5 witness: starting with an empty word list leaves the idle store
idle with the error populated. -/
theorem startQuiz_guard_witness :
    (startQuiz id id genFail [] idleQuizStore).1.quizState = idleQuizStore.quizState ∧
    (startQuiz id id genFail [] idleQuizStore).1.error =
      some "You need at least 4 saved words to start a quiz." :=
  ⟨(startQuiz_guard id id genFail [] idleQuizStore (by decide)).1,
   (startQuiz_guard id id genFail [] idleQuizStore (by decide)).2.1⟩

/-- C1 counterexample: at a whitespace-only input the remaining word list
is empty, so the claim as stated would replace results with the empty
fetched set; handleSearch instead returns before any state update, leaving
the previous nonempty results in place, and issues no fetch. -/
theorem handleSearch_counterexample :
    ((splitComma " ").map jsTrim).filter (fun w => w != "") = [] ∧
    (handleSearch fetchAlwaysOk " "
      { emptyLookupState with results := [mkWordData "cat" "d"] }).1.results
      = [mkWordData "cat" "d"] ∧
    [mkWordData "cat" "d"] ≠ ([] : List WordData) ∧
    (handleSearch fetchAlwaysOk " "
      { emptyLookupState with results := [mkWordData "cat" "d"] }).2 = [] := by
  refine ⟨rfl, rfl, by decide, rfl⟩

/-- C1 (amended): for every raw input whose trimmed form is nonempty,
handleSearch splits the input on commas, trims each piece, drops the empty
pieces, and issues one fetchWordData call per remaining word; when every
fetch succeeds, results become exactly the fetched records in order with
the current index 0 and no error, and the records are merged into the
history via addToHistory; when any fetch fails, a single error message is
reported. Inputs with an empty trimmed form are ignored entirely, which is
the separate no-op claim. -/
theorem handleSearch_spec (fetch : String → String → Except String WordData)
    (raw : String) (s : LookupState) (hne : jsTrim raw ≠ "") :
    (handleSearch fetch raw s).2 =
      ((splitComma raw).map jsTrim).filter (fun w => w != "") ∧
    ((∀ w ∈ ((splitComma raw).map jsTrim).filter (fun w => w != ""),
        ∃ d, fetch w s.gradeLevel = Except.ok d) →
      ∃ data,
        promiseAll ((((splitComma raw).map jsTrim).filter (fun w => w != "")).map
            (fun w => fetch w s.gradeLevel)) = Except.ok data ∧
        (handleSearch fetch raw s).1.results = data ∧
        (handleSearch fetch raw s).1.currentIndex = 0 ∧
        (handleSearch fetch raw s).1.error = none ∧
        (handleSearch fetch raw s).1.isLoading = false ∧
        (handleSearch fetch raw s).1.history = addToHistory data s.history) ∧
    ((∃ w ∈ ((splitComma raw).map jsTrim).filter (fun w => w != ""),
        ∀ d, fetch w s.gradeLevel ≠ Except.ok d) →
      ∃ e, (handleSearch fetch raw s).1.error = some e ∧
        (handleSearch fetch raw s).1.results = [] ∧
        (handleSearch fetch raw s).1.isLoading = false) := by
  cases hP : promiseAll ((((splitComma raw).map jsTrim).filter (fun w => w != "")).map
      (fun w => fetch w s.gradeLevel)) with
  | ok data =>
    refine ⟨by simp [handleSearch, hne, hP], ?_, ?_⟩
    · intro hall
      exact ⟨data, rfl, by simp [handleSearch, hne, hP], by simp [handleSearch, hne, hP],
             by simp [handleSearch, hne, hP], by simp [handleSearch, hne, hP],
             by simp [handleSearch, hne, hP]⟩
    · intro hex
      obtain ⟨e, he⟩ := promiseAll_map_error _ _ hex
      rw [hP] at he
      cases he
  | error e =>
    refine ⟨by simp [handleSearch, hne, hP], ?_, ?_⟩
    · intro hall
      obtain ⟨data, hd⟩ := promiseAll_map_ok _ _ hall
      rw [hP] at hd
      cases hd
    · intro hex
      exact ⟨e, by simp [handleSearch, hne, hP], by simp [handleSearch, hne, hP],
             by simp [handleSearch, hne, hP]⟩

/-- C1 witness: searching cat comma dog issues exactly the two fetches. -/
theorem handleSearch_spec_witness :
    (jsTrim "cat, dog" ≠ "") ∧
    (handleSearch fetchAlwaysOk "cat, dog" emptyLookupState).2 =
      ((splitComma "cat, dog").map jsTrim).filter (fun w => w != "") :=
  ⟨by decide, (handleSearch_spec fetchAlwaysOk "cat, dog" emptyLookupState (by decide)).1⟩

/-- C2 counterexample: a history can hold two entries for the same
case-insensitive word (they are produced by a single addToHistory batch,
which is only deduplicated against the previous history, not within
itself); on such a history, calling addToHistory with that word twice
leaves two entries, not exactly one. -/
theorem addToHistory_counterexample :
    (addToHistory [mkWordData "cat" "d1"]
        (addToHistory [mkWordData "cat" "d1"]
          (addToHistory [mkWordData "cat" "d0", mkWordData "Cat" "d0"] []))).countP
      (fun x => jsToLower x.word == jsToLower (mkWordData "cat" "d1").word) = 2 := by
  decide

/-- C2 (amended): addToHistory keeps exactly the incoming records whose
lowercased word is not already present in the history and prepends them in
order; and when the history holds at most one entry for the word of w,
calling addToHistory with the single record w twice leaves exactly one
entry for that word, the second call being a no-op. -/
theorem addToHistory_spec (batch h : List WordData) (w : WordData)
    (hw : h.countP (fun x => jsToLower x.word == jsToLower w.word) ≤ 1) :
    addToHistory batch h =
      (batch.filter (fun r =>
        decide (∀ x ∈ h, jsToLower x.word ≠ jsToLower r.word))) ++ h ∧
    (addToHistory [w] (addToHistory [w] h)).countP
        (fun x => jsToLower x.word == jsToLower w.word) = 1 ∧
    addToHistory [w] (addToHistory [w] h) = addToHistory [w] h := by
  refine ⟨?_, ?_⟩
  · unfold addToHistory
    simp only [List.append_cancel_right_eq]
    apply List.filter_congr
    intro r hr
    rw [Bool.eq_iff_iff]
    simp [List.any_eq_true]
  · cases hpresent : h.any (fun x => jsToLower x.word == jsToLower w.word) with
    | true =>
      have h1 : addToHistory [w] h = h := by
        unfold addToHistory
        simp [List.filter, hpresent]
      rw [h1, h1]
      have hpos : 0 < h.countP (fun x => jsToLower x.word == jsToLower w.word) :=
        List.countP_pos_iff.mpr (by simpa [List.any_eq_true] using hpresent)
      exact ⟨by omega, rfl⟩
    | false =>
      have h1 : addToHistory [w] h = w :: h := by
        unfold addToHistory
        simp [List.filter, hpresent]
      have h2 : addToHistory [w] (w :: h) = w :: h := by
        unfold addToHistory
        simp [List.filter, List.any_cons]
      have hzero : h.countP (fun x => jsToLower x.word == jsToLower w.word) = 0 :=
        List.countP_eq_zero.mpr (by simpa [List.any_eq_false] using hpresent)
      rw [h1, h2]
      exact ⟨by simp [List.countP_cons, hzero], rfl⟩

/-- C2 witness: adding one record twice to the empty history leaves
exactly one entry for its word, the second call being a no-op. -/
theorem addToHistory_spec_witness :
    (addToHistory [mkWordData "cat" "d"] (addToHistory [mkWordData "cat" "d"] [])).countP
      (fun x => jsToLower x.word == jsToLower (mkWordData "cat" "d").word) = 1 :=
  (addToHistory_spec [] [] (mkWordData "cat" "d") (by decide)).2.1

/-- C3 counterexample: one addToHistory call whose batch holds two records
with words differing only in case produces a history with two entries for
the same case-insensitive word; moreover a later fetch of an
already-present word is dropped by addToHistory rather than winning over
the stored record. -/
theorem history_invariant_counterexample :
    ¬ uniqueWords (addToHistory [mkWordData "cat" "d0", mkWordData "Cat" "d0"] []) ∧
    addToHistory [mkWordData "cat" "new"] [mkWordData "cat" "old"]
      = [mkWordData "cat" "old"] ∧
    mkWordData "cat" "new" ≠ mkWordData "cat" "old" := by
  refine ⟨?_, by decide, by decide⟩
  unfold uniqueWords
  decide

/-- C3 (amended): provided every addToHistory batch has pairwise
case-insensitively distinct words, both history operations preserve
case-insensitive uniqueness of words, so the history keeps at most one
entry per case-insensitive word; for an already-present word, addToHistory
keeps the stored version and drops the incoming record, while
updateHistoryItem makes the supplied record the stored entry for its word,
so only updates win over the stored version. -/
theorem history_invariant_amended (batch h : List WordData) (r : WordData)
    (hu : uniqueWords h) (hb : uniqueWords batch) :
    uniqueWords (addToHistory batch h) ∧
    uniqueWords (updateHistoryItem r h) ∧
    ((∃ x ∈ h, jsToLower x.word = jsToLower r.word) → addToHistory [r] h = h) ∧
    (∀ x ∈ updateHistoryItem r h, jsToLower x.word = jsToLower r.word → x = r) := by
  refine ⟨?_, ?_, ?_, ?_⟩
  · unfold addToHistory uniqueWords
    rw [List.pairwise_append]
    refine ⟨List.Pairwise.sublist (List.filter_sublist _) hb, hu, ?_⟩
    intro a ha b hbm
    have hmem := (List.mem_filter.mp ha).2
    simp only [Bool.not_eq_true', List.any_eq_false] at hmem
    have hfb := hmem b hbm
    intro he
    simp [he] at hfb
  · unfold updateHistoryItem uniqueWords
    apply List.Pairwise.map _ ?_ hu
    intro a b hab
    by_cases ha : jsToLower a.word = jsToLower r.word
    · by_cases hb2 : jsToLower b.word = jsToLower r.word
      · exact absurd (ha.trans hb2.symm) hab
      · rw [if_pos (beq_iff_eq.mpr ha),
          if_neg (fun hc => hb2 (beq_iff_eq.mp hc))]
        exact fun he => hb2 he.symm
    · by_cases hb2 : jsToLower b.word = jsToLower r.word
      · rw [if_neg (fun hc => ha (beq_iff_eq.mp hc)), if_pos (beq_iff_eq.mpr hb2)]
        exact ha
      · rw [if_neg (fun hc => ha (beq_iff_eq.mp hc)),
          if_neg (fun hc => hb2 (beq_iff_eq.mp hc))]
        exact hab
  · rintro ⟨x, hx, hxe⟩
    unfold addToHistory
    have hany : (h.any fun hh => jsToLower hh.word == jsToLower r.word) = true :=
      List.any_eq_true.mpr ⟨x, hx, by simp [hxe]⟩
    simp [List.filter, hany]
  · intro x hx hxe
    unfold updateHistoryItem at hx
    obtain ⟨a, ha, rfl⟩ := List.mem_map.mp hx
    by_cases hc : jsToLower a.word = jsToLower r.word
    · simp [hc]
    · rw [if_neg (by simpa [beq_iff_eq] using hc)] at hxe ⊢
      exact absurd hxe hc

/-- C3 witness: uniqueness is preserved when a fresh record is added to
the empty history, and adding an already-present word is dropped. -/
theorem history_invariant_amended_witness :
    uniqueWords (addToHistory [mkWordData "cat" "d"] []) ∧
    addToHistory [mkWordData "cat" "new"] [mkWordData "cat" "old"]
      = [mkWordData "cat" "old"] :=
  ⟨(history_invariant_amended [mkWordData "cat" "d"] [] (mkWordData "cat" "old")
      (by unfold uniqueWords; decide) (by unfold uniqueWords; decide)).1,
   (history_invariant_amended [] [mkWordData "cat" "old"] (mkWordData "cat" "new")
      (by unfold uniqueWords; decide) (by unfold uniqueWords; decide)).2.2.1
      ⟨mkWordData "cat" "old", by decide, by decide⟩⟩

/-- C6 counterexample: a parseable response with three options and a
correct answer outside them is returned as a question unchanged: no format
error is raised and the options invariant fails for the result. -/
theorem generateQuizQuestion_counterexample :
    generateQuizQuestion (mkWordData "cat" "d") [mkWordData "cat" "d"] (some badRaw)
      = Except.ok { question := "q", options := ["a", "b", "c"],
                    correctAnswer := "z", word := "cat", explanation := "simple" } ∧
    ¬ optionsInvariant { question := "q", options := ["a", "b", "c"],
                         correctAnswer := "z", word := "cat",
                         explanation := "simple" } := by
  refine ⟨rfl, ?_⟩
  unfold optionsInvariant
  decide

/-- C6 (amended): generateQuizQuestion raises the format error exactly on
an unparseable response; any parsed response is returned as a question
with the target word and explanation attached, with no validation of the
options invariant, which therefore holds for the result exactly when it
already holds of the parsed fields. -/
theorem generateQuizQuestion_amended (t : WordData) (pool : List WordData) :
    generateQuizQuestion t pool none
      = Except.error "Failed to generate a valid quiz question." ∧
    ∀ raw : QuizRaw, ∃ q : QuizQuestion,
      generateQuizQuestion t pool (some raw) = Except.ok q ∧
      q.word = t.word ∧ q.explanation = t.simplifiedExplanation ∧
      q.options = raw.options ∧ q.correctAnswer = raw.correctAnswer ∧
      (optionsInvariant q ↔
        (raw.options.length = 4 ∧ raw.options.Nodup ∧
          raw.correctAnswer ∈ raw.options)) :=
  ⟨rfl, fun raw => ⟨_, rfl, rfl, rfl, rfl, rfl, Iff.rfl⟩⟩

/-- C7: the score is the number of question indices whose recorded answer
equals the correct answer of that question; the percentage is that score
over the number of questions rounded to a whole percent, that is, the
floor of the ratio times 100 plus one half; with 5 questions and exactly 3
matching answers the score is 3 and the percentage 60. -/
theorem quiz_score_spec (questions : List QuizQuestion)
    (ua : List (Nat × String)) (hn : 0 < questions.length) :
    calculateScore questions ua =
      (questions.enum.filter (fun p =>
        answersGet ua p.1 == some p.2.correctAnswer)).length ∧
    percentage (calculateScore questions ua) questions.length =
      Nat.floor ((calculateScore questions ua * 100 : ℚ) / questions.length + 1 / 2) ∧
    (questions.length = 5 →
      (questions.enum.filter (fun p =>
        answersGet ua p.1 == some p.2.correctAnswer)).length = 3 →
      calculateScore questions ua = 3 ∧
      percentage (calculateScore questions ua) questions.length = 60) := by
  have hs : calculateScore questions ua =
      (questions.enum.filter (fun p =>
        answersGet ua p.1 == some p.2.correctAnswer)).length := by
    unfold calculateScore
    rw [foldl_count_aux, List.countP_eq_length_filter]
    simp
  refine ⟨hs, percentage_floor _ _ hn, fun h5 h3 => ?_⟩
  have hsc : calculateScore questions ua = 3 := by rw [hs, h3]
  exact ⟨hsc, by rw [hsc, h5]; decide⟩

/-- C7 witness: five concrete questions with exactly three matching
recorded answers score 3 and report 60 percent. -/
theorem quiz_score_spec_witness :
    calculateScore fiveQuestions threeRightAnswers = 3 ∧
    percentage (calculateScore fiveQuestions threeRightAnswers)
      fiveQuestions.length = 60 :=
  (quiz_score_spec fiveQuestions threeRightAnswers (by decide)).2.2
    (by decide) (by decide)

/-- C8 counterexample: with an empty-string option, the first click
records the empty answer for the current question, yet a second click is
not ignored: the disabled flag of the option buttons is the JS truthiness
of the recorded answer, which is false for the empty string, so the second
click overwrites the recorded answer. -/
theorem clickOption_counterexample :
    answersGet (clickOption emptyOptionStore "").userAnswers 0 = some "" ∧
    answersGet (clickOption (clickOption emptyOptionStore "") "x").userAnswers 0
      = some "x" ∧
    clickOption (clickOption emptyOptionStore "") "x"
      ≠ clickOption emptyOptionStore "" := by
  refine ⟨rfl, rfl, by decide⟩

/-- C8 (amended): in the active state the first answer for the current
question index records that option, and a subsequent answer for an
already-answered index is ignored, leaving the state unchanged, provided
the first recorded answer is a nonempty string; a recorded empty-string
answer is not protected by the disabled flag and can be overwritten. -/
theorem clickOption_idem (s : QuizStore) (o o2 : String)
    (hactive : s.quizState = QuizState.active) :
    (answersGet s.userAnswers s.currentQuestionIndex = none →
      answersGet (clickOption s o).userAnswers
        (clickOption s o).currentQuestionIndex = some o) ∧
    (o ≠ "" → clickOption (clickOption s o) o2 = clickOption s o) := by
  constructor
  · intro hnone
    simp [clickOption, hnone, recordAnswer, answersGet_set]
  · intro ho
    cases hA : answersGet s.userAnswers s.currentQuestionIndex with
    | none =>
      have h1 : clickOption s o = recordAnswer s o := by simp [clickOption, hA]
      have h2 : answersGet (recordAnswer s o).userAnswers
          (recordAnswer s o).currentQuestionIndex = some o := by
        simp [recordAnswer, answersGet_set]
      rw [h1]
      simp [clickOption, h2, ho]
    | some a =>
      by_cases ha : a = ""
      · have h1 : clickOption s o = recordAnswer s o := by
          simp [clickOption, hA, ha]
        have h2 : answersGet (recordAnswer s o).userAnswers
            (recordAnswer s o).currentQuestionIndex = some o := by
          simp [recordAnswer, answersGet_set]
        rw [h1]
        simp [clickOption, h2, ho]
      · have h1 : clickOption s o = s := by simp [clickOption, hA, ha]
        rw [h1]
        simp [clickOption, hA, ha]

/-- C8 witness: on an active store with no recorded answer, the first
click records the option and the second click is ignored. -/
theorem clickOption_idem_witness :
    answersGet (clickOption activeStore "a").userAnswers
      (clickOption activeStore "a").currentQuestionIndex = some "a" ∧
    clickOption (clickOption activeStore "a") "x" = clickOption activeStore "a" :=
  ⟨(clickOption_idem activeStore "a" "x" (by decide)).1 (by decide),
   (clickOption_idem activeStore "a" "x" (by decide)).2 (by decide)⟩

/-- C9: the gradeLevel effect fetches nothing on the initial mount, only
flipping the mounted ref; on a later audience-level change it issues
exactly one fetchPartialWordData call, for the word of the displayed
record only, and on success replaces only the exampleSentences and
simplifiedExplanation fields of that record, keeping its word, definition
and difficulty; results change only at the current index, the history is
updated through updateHistoryItem with the updated record, and every
history entry whose word differs case-insensitively from the displayed
word is left entirely unchanged. -/
theorem gradeLevelEffect_spec
    (fetchPartialData : String → String → Except String PartialWordData)
    (s : LookupState) (cur : WordData) (pd : PartialWordData)
    (hcur : s.results[s.currentIndex]? = some cur) (hw : cur.word ≠ "")
    (hfetch : fetchPartialData cur.word s.gradeLevel = Except.ok pd) :
    (s.isMounted = false →
      gradeLevelEffect fetchPartialData s = ({ s with isMounted := true }, [])) ∧
    (s.isMounted = true →
      (gradeLevelEffect fetchPartialData s).2 = [cur.word] ∧
      (spreadPartial cur pd).word = cur.word ∧
      (spreadPartial cur pd).definition = cur.definition ∧
      (spreadPartial cur pd).difficulty = cur.difficulty ∧
      (spreadPartial cur pd).exampleSentences = pd.exampleSentences ∧
      (spreadPartial cur pd).simplifiedExplanation = pd.simplifiedExplanation ∧
      (∀ i : Nat, i ≠ s.currentIndex →
        (gradeLevelEffect fetchPartialData s).1.results[i]? = s.results[i]?) ∧
      (gradeLevelEffect fetchPartialData s).1.results[s.currentIndex]?
        = some (spreadPartial cur pd) ∧
      (gradeLevelEffect fetchPartialData s).1.history
        = updateHistoryItem (spreadPartial cur pd) s.history ∧
      (∀ i : Nat, ∀ x : WordData, s.history[i]? = some x →
        jsToLower x.word ≠ jsToLower cur.word →
        (gradeLevelEffect fetchPartialData s).1.history[i]? = some x)) := by
  constructor
  · intro hm
    simp [gradeLevelEffect, hm]
  · intro hm
    have hred : gradeLevelEffect fetchPartialData s =
        ({ s with error := none,
                  results := s.results.mapIdx (fun index item =>
                    if index = s.currentIndex then spreadPartial cur pd else item),
                  history := updateHistoryItem (spreadPartial cur pd) s.history,
                  isUpdating := false }, [cur.word]) := by
      simp [gradeLevelEffect, hm, hcur, hw, hfetch]
    refine ⟨by rw [hred], rfl, rfl, rfl, rfl, rfl, ?_, ?_, by rw [hred], ?_⟩
    · intro i hi
      rw [hred]
      simp only [List.getElem?_mapIdx]
      cases s.results[i]? with
      | none => rfl
      | some it => simp [hi]
    · rw [hred]
      simp [List.getElem?_mapIdx, hcur]
    · intro i x hx hne
      rw [hred]
      simp only [updateHistoryItem, List.getElem?_map, hx, Option.map_some']
      have hcond : ¬((jsToLower x.word == jsToLower (spreadPartial cur pd).word) = true) := by
        simp only [spreadPartial]
        simpa [beq_iff_eq] using hne
      rw [if_neg hcond]

/-- C9 witness: on the mounted state displaying the cat record, the effect
fetches exactly the displayed word and leaves the dog history entry
unchanged. -/
theorem gradeLevelEffect_spec_witness :
    (gradeLevelEffect partialOracle mountedState).2 = ["cat"] ∧
    (gradeLevelEffect partialOracle mountedState).1.history[1]?
      = some (mkWordData "dog" "e") :=
  ⟨((gradeLevelEffect_spec partialOracle mountedState (mkWordData "cat" "d")
      { exampleSentences := ["n1", "n2"], simplifiedExplanation := "newer" }
      rfl (by decide) rfl).2 rfl).1,
   ((gradeLevelEffect_spec partialOracle mountedState (mkWordData "cat" "d")
      { exampleSentences := ["n1", "n2"], simplifiedExplanation := "newer" }
      rfl (by decide) rfl).2 rfl).2.2.2.2.2.2.2.2.2 1 (mkWordData "dog" "e")
      rfl (by decide)⟩

end VocabBuddy
